import Mathlib

/-
Verification of the message-broker core of Pipeline (src/pipeline.py).

The broker state of `TerminalManager` is embedded shallowly:
  * `self.terminals` is an insertion-ordered string-keyed dictionary
    (Python 3.7+ dict semantics: assignment to an existing key keeps its
    position, a fresh key is appended), modelled as an association list
    mutated only through `dictSet` / `dictDel`;
  * `self.completion_callbacks` is a dictionary keyed by the f-string
    `f"{target}:{command}"`, likewise an association list.
Each handler of `TerminalManager` becomes a pure function from the incoming
message, the handling socket and the state to the new state together with
the list of socket writes that succeeded.  A `socket.send` that raises is
modelled by the oracle `sendOk : Nat → Bool` answering `false` for that
socket; the handler then takes its `except` branch and the write does not
appear in the output list.  JSON values that the broker only passes through
(the `result` field of a completion) are carried as their serialized text.
-/

/-- Python dictionary lookup `d.get(k)` / `d[k]` on an association list:
the value at the first occurrence of the key. -/
def dictGet {α : Type} (d : List (String × α)) (k : String) : Option α :=
  match d with
  | [] => none
  | (k2, v) :: rest => if k2 = k then some v else dictGet rest k

/-- Python membership test `k in d`. -/
def dictMem {α : Type} (d : List (String × α)) (k : String) : Bool :=
  (dictGet d k).isSome

/-- Python dictionary assignment `d[k] = v`: replace the value in place when
the key is present, append a fresh entry otherwise. -/
def dictSet {α : Type} (d : List (String × α)) (k : String) (v : α) :
    List (String × α) :=
  match d with
  | [] => [(k, v)]
  | (k2, v2) :: rest =>
      if k2 = k then (k, v) :: rest else (k2, v2) :: dictSet rest k v

/-- Python dictionary deletion `del d[k]` (the code only deletes keys whose
presence it has just checked). -/
def dictDel {α : Type} (d : List (String × α)) (k : String) :
    List (String × α) :=
  match d with
  | [] => []
  | (k2, v) :: rest =>
      if k2 = k then dictDel rest k else (k2, v) :: dictDel rest k

/-- Python `list(d.keys())`. -/
def dictKeys {α : Type} (d : List (String × α)) : List String :=
  d.map Prod.fst

/-- Python f-string rendering of a value that may be `None`
(`f"{x}"` prints `None` for `None`). -/
def pyStr : Option String → String
  | none => "None"
  | some s => s

/-- Python truthiness of an optional string (`if x:`): `None` and the empty
string are falsy. -/
def truthy : Option String → Bool
  | none => false
  | some s => s ≠ ""

/-- The fields the broker reads off a decoded JSON message with
`message.get(...)`; a missing field reads as `none` (Python `None`). -/
structure Msg where
  type : Option String := none
  name : Option String := none
  pid : Option Int := none
  cwd : Option String := none
  target : Option String := none
  content : Option String := none
  command : Option String := none
  callback : Option String := none
  terminal : Option String := none
  result : Option String := none
deriving DecidableEq

/-- One value of `self.terminals`: the dict
`{'socket': ..., 'pid': ..., 'cwd': ...}` built in `_register_terminal`;
sockets are identified by a numeric handle. -/
structure TermInfo where
  socket : Nat
  pid : Option Int
  cwd : String
deriving DecidableEq

/-- The mutable state of `TerminalManager` that the routing claims concern:
`self.terminals` and `self.completion_callbacks`. -/
structure BrokerState where
  terminals : List (String × TermInfo)
  completion_callbacks : List (String × String)
deriving DecidableEq

/-- The JSON objects the broker writes to client sockets. -/
inductive OutMsg where
  /-- `{'status': 'registered', 'name': name}` from `_register_terminal`. -/
  | registered (name : String)
  /-- `{'type': 'message', 'content': content}` from `_send_to_terminal`. -/
  | message (content : Option String)
  /-- `{'type': 'execute', 'command': c, 'callback': cb}` from
  `_execute_command`. -/
  | execute (command : Option String) (callback : Option String)
  /-- `{'type': 'callback', 'from_terminal': t, 'command': c, 'result': r}`
  from `_handle_completion`. -/
  | callback (from_terminal : Option String) (command : Option String)
      (result : Option String)
  /-- `{'type': 'list', 'terminals': [...]}` from `_list_terminals`. -/
  | listReply (terminals : List String)
deriving DecidableEq

/-- `TerminalManager._register_terminal`: if `message.get('name')` is truthy,
overwrite `self.terminals[name]` with this socket's info and send the
`registered` reply (an exception from that send propagates out of
`_process_message`, after the state was already mutated). `serverCwd` is the
broker's `os.getcwd()`, the default for a missing `cwd` field. -/
def registerTerminal (serverCwd : String) (sendOk : Nat → Bool) (msg : Msg)
    (client : Nat) (s : BrokerState) : BrokerState × List (Nat × OutMsg) :=
  match msg.name with
  | none => (s, [])
  | some term_name =>
      if term_name = "" then (s, [])
      else
        let info : TermInfo :=
          { socket := client, pid := msg.pid, cwd := msg.cwd.getD serverCwd }
        ({ s with terminals := dictSet s.terminals term_name info },
         if sendOk client then [(client, OutMsg.registered term_name)] else [])

/-- `TerminalManager._send_to_terminal`: if the target is registered, try to
send `{'type': 'message', 'content': content}` to its socket; on send failure
delete the target from `self.terminals`.  A missing or unregistered target
does nothing. -/
def sendToTerminal (sendOk : Nat → Bool) (msg : Msg) (s : BrokerState) :
    BrokerState × List (Nat × OutMsg) :=
  match msg.target with
  | none => (s, [])
  | some target =>
      match dictGet s.terminals target with
      | none => (s, [])
      | some info =>
          if sendOk info.socket then
            (s, [(info.socket, OutMsg.message msg.content)])
          else
            ({ s with terminals := dictDel s.terminals target }, [])

/-- The key `f"{target}:{command}"` under which `_execute_command` stores a
callback registration. -/
def executeKey (target : String) (command : Option String) : String :=
  target ++ ":" ++ pyStr command

/-- `TerminalManager._execute_command`: if the target is registered, first
record `completion_callbacks[f"{target}:{command}"] = callback` when
`callback` is truthy, then try to send the `execute` message to the target;
on send failure delete the target from `self.terminals` (the callback entry,
already written, stays). -/
def executeCommand (sendOk : Nat → Bool) (msg : Msg) (s : BrokerState) :
    BrokerState × List (Nat × OutMsg) :=
  match msg.target with
  | none => (s, [])
  | some target =>
      match dictGet s.terminals target with
      | none => (s, [])
      | some info =>
          let s1 :=
            match msg.callback with
            | none => s
            | some cb =>
                if cb = "" then s
                else
                  { s with completion_callbacks :=
                      (dictSet s.completion_callbacks
                        (executeKey target msg.command) cb) }
          if sendOk info.socket then
            (s1, [(info.socket, OutMsg.execute msg.command msg.callback)])
          else
            ({ s1 with terminals := dictDel s1.terminals target }, [])

/-- The key `f"{terminal}:{command}"` that `_handle_completion` looks up. -/
def completionKey (msg : Msg) : String :=
  pyStr msg.terminal ++ ":" ++ pyStr msg.command

/-- `TerminalManager._handle_completion`: look up
`completion_callbacks[f"{terminal}:{command}"]`; when present and the named
callback terminal is registered, try to send it the `callback` message (a
send failure is swallowed by `except: pass`, mutating nothing further); in
every found case delete the callback entry.  An absent key does nothing. -/
def handleCompletion (sendOk : Nat → Bool) (msg : Msg) (s : BrokerState) :
    BrokerState × List (Nat × OutMsg) :=
  match dictGet s.completion_callbacks (completionKey msg) with
  | none => (s, [])
  | some callback_terminal =>
      let s1 := { s with completion_callbacks :=
                    dictDel s.completion_callbacks (completionKey msg) }
      match dictGet s.terminals callback_terminal with
      | none => (s1, [])
      | some info =>
          if sendOk info.socket then
            (s1, [(info.socket,
                   OutMsg.callback msg.terminal msg.command msg.result)])
          else
            (s1, [])

/-- `TerminalManager._list_terminals`: reply to the requesting socket with
`{'type': 'list', 'terminals': list(self.terminals.keys())}` (a send failure
propagates out of `_process_message`, mutating nothing). -/
def listTerminals (sendOk : Nat → Bool) (client : Nat) (s : BrokerState) :
    BrokerState × List (Nat × OutMsg) :=
  (s, if sendOk client then
        [(client, OutMsg.listReply (dictKeys s.terminals))]
      else [])

/-- `TerminalManager._process_message`: dispatch on `message.get('type')`;
unrecognized types do nothing. -/
def processMessage (serverCwd : String) (sendOk : Nat → Bool) (msg : Msg)
    (client : Nat) (s : BrokerState) : BrokerState × List (Nat × OutMsg) :=
  match msg.type with
  | some "register" => registerTerminal serverCwd sendOk msg client s
  | some "send" => sendToTerminal sendOk msg s
  | some "execute" => executeCommand sendOk msg s
  | some "complete" => handleCompletion sendOk msg s
  | some "list" => listTerminals sendOk client s
  | _ => (s, [])

/-- The teardown path of `TerminalManager._handle_client` when `recv` returns
empty (peer closed) or raises: the loop exits, `except: pass` swallows any
error, and `finally: client_socket.close()` runs.  No broker state is read or
written on this path — the registry keeps whatever entries point at the dead
socket. -/
def handleDisconnect (_client : Nat) (s : BrokerState) : BrokerState :=
  s

/-! ### Dictionary lemmas -/

theorem dictKeys_nil {α : Type} : dictKeys ([] : List (String × α)) = [] :=
  rfl

theorem dictKeys_cons {α : Type} (a : String) (b : α)
    (rest : List (String × α)) :
    dictKeys ((a, b) :: rest) = a :: dictKeys rest :=
  rfl

theorem dictGet_dictSet_self {α : Type} (d : List (String × α)) (k : String)
    (v : α) : dictGet (dictSet d k v) k = some v := by
  induction d with
  | nil => simp [dictSet, dictGet]
  | cons p rest ih =>
      obtain ⟨a, b⟩ := p
      by_cases ha : a = k
      · simp [dictSet, dictGet, ha]
      · simp [dictSet, dictGet, ha, ih]

theorem dictGet_dictSet_ne {α : Type} (d : List (String × α)) (k k2 : String)
    (v : α) (h : k2 ≠ k) : dictGet (dictSet d k v) k2 = dictGet d k2 := by
  have hk : ¬ k = k2 := fun hh => h hh.symm
  induction d with
  | nil =>
      show (if k = k2 then some v else none) = none
      rw [if_neg hk]
  | cons p rest ih =>
      obtain ⟨a, b⟩ := p
      by_cases ha : a = k
      · subst ha
        have hset : dictSet ((a, b) :: rest) a v = (a, v) :: rest :=
          if_pos rfl
        rw [hset]
        show (if a = k2 then some v else dictGet rest k2)
            = if a = k2 then some b else dictGet rest k2
        rw [if_neg hk, if_neg hk]
      · show dictGet (if a = k then (k, v) :: rest else
            (a, b) :: dictSet rest k v) k2 = dictGet ((a, b) :: rest) k2
        rw [if_neg ha]
        show (if a = k2 then some b else dictGet (dictSet rest k v) k2)
            = if a = k2 then some b else dictGet rest k2
        rw [ih]

theorem dictGet_dictDel_self {α : Type} (d : List (String × α)) (k : String) :
    dictGet (dictDel d k) k = none := by
  induction d with
  | nil => rfl
  | cons p rest ih =>
      obtain ⟨a, b⟩ := p
      by_cases ha : a = k
      · show dictGet (if a = k then dictDel rest k else
            (a, b) :: dictDel rest k) k = none
        rw [if_pos ha]
        exact ih
      · show dictGet (if a = k then dictDel rest k else
            (a, b) :: dictDel rest k) k = none
        rw [if_neg ha]
        show (if a = k then some b else dictGet (dictDel rest k) k) = none
        rw [if_neg ha]
        exact ih

theorem dictGet_dictDel_ne {α : Type} (d : List (String × α)) (k k2 : String)
    (h : k2 ≠ k) : dictGet (dictDel d k) k2 = dictGet d k2 := by
  induction d with
  | nil => rfl
  | cons p rest ih =>
      obtain ⟨a, b⟩ := p
      by_cases ha : a = k
      · subst ha
        show dictGet (if a = a then dictDel rest a else
            (a, b) :: dictDel rest a) k2 = dictGet ((a, b) :: rest) k2
        rw [if_pos rfl]
        show dictGet (dictDel rest a) k2
            = if a = k2 then some b else dictGet rest k2
        rw [if_neg (fun hh : a = k2 => h hh.symm)]
        exact ih
      · show dictGet (if a = k then dictDel rest k else
            (a, b) :: dictDel rest k) k2 = dictGet ((a, b) :: rest) k2
        rw [if_neg ha]
        show (if a = k2 then some b else dictGet (dictDel rest k) k2)
            = if a = k2 then some b else dictGet rest k2
        rw [ih]

theorem dictMem_iff {α : Type} (d : List (String × α)) (k : String) :
    dictMem d k = true ↔ k ∈ dictKeys d := by
  induction d with
  | nil => simp [dictMem, dictGet, dictKeys_nil]
  | cons p rest ih =>
      obtain ⟨a, b⟩ := p
      rw [dictKeys_cons, List.mem_cons]
      by_cases ha : a = k
      · subst ha
        simp [dictMem, dictGet]
      · have hk : ¬ k = a := fun hh => ha hh.symm
        have hstep : dictMem ((a, b) :: rest) k = dictMem rest k := by
          show (if a = k then some b else dictGet rest k).isSome
              = (dictGet rest k).isSome
          rw [if_neg ha]
        rw [hstep, ih]
        constructor
        · exact fun hh => Or.inr hh
        · rintro (hh | hh)
          · exact absurd hh hk
          · exact hh

theorem mem_dictKeys_dictSet {α : Type} (d : List (String × α)) (k x : String)
    (v : α) : x ∈ dictKeys (dictSet d k v) ↔ x = k ∨ x ∈ dictKeys d := by
  induction d with
  | nil => simp [dictSet, dictKeys_nil, dictKeys_cons]
  | cons p rest ih =>
      obtain ⟨a, b⟩ := p
      by_cases ha : a = k
      · subst ha
        have hset : dictSet ((a, b) :: rest) a v = (a, v) :: rest :=
          if_pos rfl
        rw [hset, dictKeys_cons, dictKeys_cons]
        simp only [List.mem_cons]
        tauto
      · have hset : dictSet ((a, b) :: rest) k v
            = (a, b) :: dictSet rest k v := if_neg ha
        rw [hset, dictKeys_cons, dictKeys_cons, List.mem_cons, List.mem_cons,
          ih]
        tauto

theorem nodup_dictKeys_dictSet {α : Type} (d : List (String × α))
    (k : String) (v : α) (h : (dictKeys d).Nodup) :
    (dictKeys (dictSet d k v)).Nodup := by
  induction d with
  | nil => simp [dictSet, dictKeys_cons, dictKeys_nil]
  | cons p rest ih =>
      obtain ⟨a, b⟩ := p
      rw [dictKeys_cons, List.nodup_cons] at h
      by_cases ha : a = k
      · subst ha
        have hset : dictSet ((a, b) :: rest) a v = (a, v) :: rest :=
          if_pos rfl
        rw [hset, dictKeys_cons, List.nodup_cons]
        exact h
      · have hset : dictSet ((a, b) :: rest) k v
            = (a, b) :: dictSet rest k v := if_neg ha
        rw [hset, dictKeys_cons, List.nodup_cons]
        refine ⟨?_, ih h.2⟩
        intro hmem
        rcases (mem_dictKeys_dictSet rest k a v).mp hmem with hh | hh
        · exact ha hh
        · exact h.1 hh

/-! ### Handler characterizations -/

/-- `_execute_command` on a registered target with a truthy callback and a
successful send: the callback entry is recorded and the execute message goes
to the target's socket. -/
theorem executeCommand_success_callback (sendOk : Nat → Bool) (msg : Msg)
    (s : BrokerState) (t cb : String) (info : TermInfo)
    (ht : msg.target = some t) (hreg : dictGet s.terminals t = some info)
    (hcb : msg.callback = some cb) (hne : cb ≠ "")
    (hok : sendOk info.socket = true) :
    executeCommand sendOk msg s =
      ({ s with completion_callbacks :=
          (dictSet s.completion_callbacks (executeKey t msg.command) cb) },
       [(info.socket, OutMsg.execute msg.command msg.callback)]) := by
  simp [executeCommand, ht, hreg, hcb, hne, hok]

/-! ### Concrete fixtures used by witnesses and counterexamples -/

/-- A send oracle under which every socket write succeeds. -/
def okAll : Nat → Bool := fun _ => true

/-- A send oracle under which every socket write raises. -/
def okNone : Nat → Bool := fun _ => false

/-- Session info for a terminal on socket 1. -/
def infoA : TermInfo := { socket := 1, pid := none, cwd := "/" }

/-- Session info for a terminal on socket 2. -/
def infoB : TermInfo := { socket := 2, pid := none, cwd := "/" }

/-- A registry holding terminals `A` (socket 1) and `B` (socket 2), with no
outstanding callbacks. -/
def sAB : BrokerState :=
  { terminals := [("A", infoA), ("B", infoB)], completion_callbacks := [] }

/-- An execute message asking `B` to run `ls` with callback terminal `A`. -/
def msgExecBA : Msg :=
  { type := some "execute", target := some "B", command := some "ls",
    callback := some "A" }

/-! ### Claim theorems -/

/-- C7: processing a `send` message whose target is not in the Registry is a
silent no-op — no write is issued to any session, no reply or error reaches
the sender, and both the Registry and the Callback Table are unchanged
(`_send_to_terminal` falls through its `if target in self.terminals`). -/
theorem C7_send_unknown_target_noop (sendOk : Nat → Bool) (msg : Msg)
    (t : String) (s : BrokerState) (ht : msg.target = some t)
    (habs : dictGet s.terminals t = none) :
    sendToTerminal sendOk msg s = (s, []) := by
  simp [sendToTerminal, ht, habs]

/-- C7 witness: a concrete send to the unregistered name `Z` leaves the
two-terminal state untouched and delivers nothing. -/
theorem C7_witness :
    sendToTerminal okAll
      { type := some "send", target := some "Z", content := some "hi" } sAB
      = (sAB, []) :=
  C7_send_unknown_target_noop okAll
    { type := some "send", target := some "Z", content := some "hi" }
    "Z" sAB rfl (by decide)

/-- C8: processing a `list` message replies to the requesting session with
exactly the currently registered names in the dictionary's stable insertion
order — assuming the registry keys are duplicate-free (which every handler
preserves), each registered name appears exactly once and no unregistered
name appears. -/
theorem C8_list_reply_exact (sendOk : Nat → Bool) (client : Nat)
    (s : BrokerState) (hok : sendOk client = true)
    (hnd : (dictKeys s.terminals).Nodup) :
    listTerminals sendOk client s
        = (s, [(client, OutMsg.listReply (dictKeys s.terminals))]) ∧
    (∀ n, dictMem s.terminals n = true →
        (dictKeys s.terminals).count n = 1) ∧
    (∀ n, dictMem s.terminals n = false →
        (dictKeys s.terminals).count n = 0) := by
  refine ⟨?_, ?_, ?_⟩
  · simp [listTerminals, hok]
  · intro n hn
    exact List.count_eq_one_of_mem hnd ((dictMem_iff _ _).mp hn)
  · intro n hn
    rw [List.count_eq_zero]
    intro hmem
    have hcontra := (dictMem_iff s.terminals n).mpr hmem
    rw [hn] at hcontra
    exact Bool.false_ne_true hcontra

/-- C8 witness: listing the two-terminal registry replies with exactly
`["A", "B"]`, and the registered name `A` appears exactly once. -/
theorem C8_witness :
    listTerminals okAll 7 sAB = (sAB, [(7, OutMsg.listReply ["A", "B"])]) ∧
    (dictKeys sAB.terminals).count "A" = 1 := by
  have h := C8_list_reply_exact okAll 7 sAB rfl (by decide)
  refine ⟨?_, h.2.1 "A" (by decide)⟩
  rw [h.1]
  rfl

/-- C9: processing a `register` message whose `name` field is missing or
empty is a complete no-op — `_register_terminal` guards on Python truthiness
of the name, so no Registry entry is touched and no `registered` reply is
sent. -/
theorem C9_register_untruthy_name_noop (serverCwd : String)
    (sendOk : Nat → Bool) (msg : Msg) (client : Nat) (s : BrokerState)
    (h : msg.name = none ∨ msg.name = some "") :
    registerTerminal serverCwd sendOk msg client s = (s, []) := by
  rcases h with h | h
  · unfold registerTerminal
    rw [h]
  · unfold registerTerminal
    rw [h]
    simp

/-- C9 witness: registering with an empty name against the two-terminal
state changes nothing and sends no reply. -/
theorem C9_witness :
    registerTerminal "/" okAll { type := some "register", name := some "" }
      9 sAB = (sAB, []) :=
  C9_register_untruthy_name_noop "/" okAll
    { type := some "register", name := some "" } 9 sAB (Or.inr rfl)

/-- C10: when an execute with a truthy callback targets a registered
terminal and the write to the target raises, the target is deleted from the
Registry, yet the callback entry for `(target, command)` — created before
the send attempt — stays in the Callback Table, and nothing is delivered. -/
theorem C10_execute_failed_write_keeps_callback (sendOk : Nat → Bool)
    (msg : Msg) (s : BrokerState) (t cb : String) (info : TermInfo)
    (ht : msg.target = some t) (hreg : dictGet s.terminals t = some info)
    (hcb : msg.callback = some cb) (hne : cb ≠ "")
    (hfail : sendOk info.socket = false) :
    (executeCommand sendOk msg s).1.terminals = dictDel s.terminals t ∧
    dictGet (executeCommand sendOk msg s).1.terminals t = none ∧
    dictGet (executeCommand sendOk msg s).1.completion_callbacks
        (executeKey t msg.command) = some cb ∧
    (executeCommand sendOk msg s).2 = [] := by
  have hexec : executeCommand sendOk msg s =
      ({ terminals := dictDel s.terminals t,
         completion_callbacks :=
           (dictSet s.completion_callbacks (executeKey t msg.command) cb) },
       []) := by
    simp [executeCommand, ht, hreg, hcb, hne, hfail]
  rw [hexec]
  exact ⟨rfl, dictGet_dictDel_self _ _, dictGet_dictSet_self _ _ _, rfl⟩

/-- C10 witness: a failed execute write to `B` removes `B` but leaves the
callback entry `B:ls ↦ A` behind. -/
theorem C10_witness :
    (executeCommand okNone msgExecBA sAB).1.terminals = dictDel sAB.terminals "B" ∧
    dictGet (executeCommand okNone msgExecBA sAB).1.terminals "B" = none ∧
    dictGet (executeCommand okNone msgExecBA sAB).1.completion_callbacks
        (executeKey "B" (some "ls")) = some "A" ∧
    (executeCommand okNone msgExecBA sAB).2 = [] :=
  C10_execute_failed_write_keeps_callback okNone msgExecBA sAB "B" "A" infoB
    rfl (by decide) rfl (by decide) rfl

/-- `_register_terminal` on a truthy name: the registry entry is overwritten
and the `registered` reply is attempted on the registering socket. -/
theorem registerTerminal_named (serverCwd : String) (sendOk : Nat → Bool)
    (msg : Msg) (client : Nat) (s : BrokerState) (name : String)
    (hmsg : msg.name = some name) (hne : name ≠ "") :
    registerTerminal serverCwd sendOk msg client s =
      ({ s with terminals := (dictSet s.terminals name
          { socket := client, pid := msg.pid,
            cwd := msg.cwd.getD serverCwd }) },
       if sendOk client then [(client, OutMsg.registered name)] else []) := by
  simp [registerTerminal, hmsg, hne]

/-- `_execute_command` on a registered target with a truthy callback and a
failing send: the target is deleted but the callback entry, written first,
survives. -/
theorem executeCommand_failure_callback (sendOk : Nat → Bool) (msg : Msg)
    (s : BrokerState) (t cb : String) (info : TermInfo)
    (ht : msg.target = some t) (hreg : dictGet s.terminals t = some info)
    (hcb : msg.callback = some cb) (hne : cb ≠ "")
    (hfail : sendOk info.socket = false) :
    executeCommand sendOk msg s =
      ({ terminals := dictDel s.terminals t,
         completion_callbacks :=
           (dictSet s.completion_callbacks (executeKey t msg.command) cb) },
       []) := by
  simp [executeCommand, ht, hreg, hcb, hne, hfail]

/-- `_handle_completion` when the key is present: the entry is deleted, the
registry is untouched, and the callback message is delivered exactly when
the named terminal is registered and its socket accepts the write. -/
theorem handleCompletion_found (sendOk : Nat → Bool) (msg : Msg)
    (s : BrokerState) (cb : String)
    (hcb : dictGet s.completion_callbacks (completionKey msg) = some cb) :
    handleCompletion sendOk msg s =
      ({ s with completion_callbacks :=
            dictDel s.completion_callbacks (completionKey msg) },
       match dictGet s.terminals cb with
       | none => []
       | some info =>
           if sendOk info.socket then
             [(info.socket,
               OutMsg.callback msg.terminal msg.command msg.result)]
           else []) := by
  cases hreg : dictGet s.terminals cb with
  | none => simp [handleCompletion, hcb, hreg]
  | some info =>
      cases hok : sendOk info.socket with
      | false => simp [handleCompletion, hcb, hreg, hok]
      | true => simp [handleCompletion, hcb, hreg, hok]

/-- The state of a freshly constructed `TerminalManager`: both dicts empty. -/
def s0 : BrokerState := { terminals := [], completion_callbacks := [] }

/-- A register message announcing the name `A`. -/
def regA : Msg := { type := some "register", name := some "A" }

/-- A register message announcing the name `B`. -/
def regB : Msg := { type := some "register", name := some "B" }

/-- A send message for target `A` with content `hi`. -/
def msgSendA : Msg :=
  { type := some "send", target := some "A", content := some "hi" }

/-- A state holding terminal `A` (socket 1) and an outstanding callback
entry `B:ls ↦ A`. -/
def sCB : BrokerState :=
  { terminals := [("A", infoA)], completion_callbacks := [("B:ls", "A")] }

/-- A complete message from terminal `B` for command `ls`. -/
def msgCompB : Msg :=
  { type := some "complete", terminal := some "B", command := some "ls",
    result := some "ok" }

/-- C2: for a complete message, `_handle_completion` looks up the callback
entry under the key built from `(terminal, command)`; whenever found, the
entry is deleted and the registry is untouched, and exactly one `callback`
message `{type, from_terminal, command, result}` goes to the callback
terminal's session when that terminal is registered and its socket accepts
the write (no write if it is unregistered or the write raises); an absent
entry changes nothing and writes nothing. -/
theorem C2_completion_routing (sendOk : Nat → Bool) (msg : Msg)
    (s : BrokerState) :
    (dictGet s.completion_callbacks (completionKey msg) = none →
        handleCompletion sendOk msg s = (s, [])) ∧
    (∀ cb, dictGet s.completion_callbacks (completionKey msg) = some cb →
        (handleCompletion sendOk msg s).1.completion_callbacks
            = dictDel s.completion_callbacks (completionKey msg) ∧
        (handleCompletion sendOk msg s).1.terminals = s.terminals ∧
        (∀ info, dictGet s.terminals cb = some info →
            sendOk info.socket = true →
            (handleCompletion sendOk msg s).2
              = [(info.socket,
                  OutMsg.callback msg.terminal msg.command msg.result)]) ∧
        (dictGet s.terminals cb = none →
            (handleCompletion sendOk msg s).2 = []) ∧
        (∀ info, dictGet s.terminals cb = some info →
            sendOk info.socket = false →
            (handleCompletion sendOk msg s).2 = [])) := by
  constructor
  · intro h
    simp [handleCompletion, h]
  · intro cb hcb
    rw [handleCompletion_found sendOk msg s cb hcb]
    refine ⟨rfl, rfl, ?_, ?_, ?_⟩
    · intro info hreg hok
      simp [hreg, hok]
    · intro hreg
      simp [hreg]
    · intro info hreg hok
      simp [hreg, hok]

/-- C2 witness: completing `B:ls` against a state holding that entry and a
registered `A` deletes the entry, keeps the registry, and delivers exactly
one callback message to `A`'s socket. -/
theorem C2_witness :
    (handleCompletion okAll msgCompB sCB).1.completion_callbacks = [] ∧
    (handleCompletion okAll msgCompB sCB).1.terminals = sCB.terminals ∧
    (handleCompletion okAll msgCompB sCB).2
      = [(1, OutMsg.callback (some "B") (some "ls") (some "ok"))] := by
  have h := (C2_completion_routing okAll msgCompB sCB).2 "A" (by decide)
  refine ⟨?_, h.2.1, ?_⟩
  · rw [h.1]
    rfl
  · have h3 := h.2.2.1 infoA (by decide) rfl
    rw [h3]
    rfl

/-- C3: registering a name a second time overwrites the previous Registry
entry with the new session — no collision error, the keys stay
duplicate-free, and a subsequent send to that name writes only to the
newest connection's socket. -/
theorem C3_reregister_overwrites (serverCwd : String)
    (sendOk1 sendOk2 sendOk3 : Nat → Bool) (name : String) (hname : name ≠ "")
    (m1 m2 m3 : Msg) (h1 : m1.name = some name) (h2 : m2.name = some name)
    (h3 : m3.target = some name) (c1 c2 : Nat) (s : BrokerState)
    (hok : sendOk3 c2 = true) :
    dictGet (registerTerminal serverCwd sendOk2 m2 c2
        (registerTerminal serverCwd sendOk1 m1 c1 s).1).1.terminals name
      = some { socket := c2, pid := m2.pid, cwd := m2.cwd.getD serverCwd } ∧
    ((dictKeys s.terminals).Nodup →
      (dictKeys (registerTerminal serverCwd sendOk2 m2 c2
          (registerTerminal serverCwd sendOk1 m1 c1 s).1).1.terminals).Nodup) ∧
    (sendToTerminal sendOk3 m3 (registerTerminal serverCwd sendOk2 m2 c2
        (registerTerminal serverCwd sendOk1 m1 c1 s).1).1).2
      = [(c2, OutMsg.message m3.content)] := by
  have e1 : (registerTerminal serverCwd sendOk1 m1 c1 s).1.terminals
      = dictSet s.terminals name
          { socket := c1, pid := m1.pid, cwd := m1.cwd.getD serverCwd } := by
    rw [registerTerminal_named serverCwd sendOk1 m1 c1 s name h1 hname]
  have e2 : (registerTerminal serverCwd sendOk2 m2 c2
      (registerTerminal serverCwd sendOk1 m1 c1 s).1).1.terminals
      = dictSet (registerTerminal serverCwd sendOk1 m1 c1 s).1.terminals name
          { socket := c2, pid := m2.pid, cwd := m2.cwd.getD serverCwd } := by
    rw [registerTerminal_named serverCwd sendOk2 m2 c2
      (registerTerminal serverCwd sendOk1 m1 c1 s).1 name h2 hname]
  have hget : dictGet (registerTerminal serverCwd sendOk2 m2 c2
      (registerTerminal serverCwd sendOk1 m1 c1 s).1).1.terminals name
      = some { socket := c2, pid := m2.pid, cwd := m2.cwd.getD serverCwd } := by
    rw [e2]
    exact dictGet_dictSet_self _ _ _
  refine ⟨hget, ?_, ?_⟩
  · intro hnd
    rw [e2, e1]
    exact nodup_dictKeys_dictSet _ _ _ (nodup_dictKeys_dictSet _ _ _ hnd)
  · simp [sendToTerminal, h3, hget, hok]

/-- C3 witness: registering `A` from socket 1 and again from socket 2
leaves `A` bound to socket 2, and a send to `A` reaches only socket 2. -/
theorem C3_witness :
    dictGet (registerTerminal "/" okAll regA 2
        (registerTerminal "/" okAll regA 1 s0).1).1.terminals "A"
      = some { socket := 2, pid := none, cwd := "/" } ∧
    (sendToTerminal okAll msgSendA (registerTerminal "/" okAll regA 2
        (registerTerminal "/" okAll regA 1 s0).1).1).2
      = [(2, OutMsg.message (some "hi"))] := by
  have h := C3_reregister_overwrites "/" okAll okAll okAll "A" (by decide)
      regA regA msgSendA rfl rfl rfl 1 2 s0 rfl
  exact ⟨h.1, h.2.2⟩

/-- C4: when the same `(target, command)` execute is issued twice with two
different non-empty callback terminals before any completion, the second
registration overwrites the first's entry; the later matching complete
delivers exactly one callback message, to the second callback terminal's
socket, and nothing to the first's. -/
theorem C4_second_execute_wins (sendOk1 sendOk2 sendOk3 : Nat → Bool)
    (s : BrokerState) (t cmd c1 c2 : String) (tInfo i1 i2 : TermInfo)
    (m1 m2 m3 : Msg)
    (ht1 : m1.target = some t) (hcmd1 : m1.command = some cmd)
    (hcb1 : m1.callback = some c1) (hc1 : c1 ≠ "")
    (ht2 : m2.target = some t) (hcmd2 : m2.command = some cmd)
    (hcb2 : m2.callback = some c2) (hc2 : c2 ≠ "")
    (hm3t : m3.terminal = some t) (hm3c : m3.command = some cmd)
    (hreg_t : dictGet s.terminals t = some tInfo)
    (hok1 : sendOk1 tInfo.socket = true) (hok2 : sendOk2 tInfo.socket = true)
    (hreg_c1 : dictGet s.terminals c1 = some i1)
    (hreg_c2 : dictGet s.terminals c2 = some i2)
    (hok3 : sendOk3 i2.socket = true) (hsock : i1.socket ≠ i2.socket) :
    dictGet (executeCommand sendOk2 m2
        (executeCommand sendOk1 m1 s).1).1.completion_callbacks
        (executeKey t (some cmd)) = some c2 ∧
    (handleCompletion sendOk3 m3 (executeCommand sendOk2 m2
        (executeCommand sendOk1 m1 s).1).1).2
      = [(i2.socket, OutMsg.callback m3.terminal m3.command m3.result)] ∧
    (∀ w, w ∈ (handleCompletion sendOk3 m3 (executeCommand sendOk2 m2
        (executeCommand sendOk1 m1 s).1).1).2 → w.1 ≠ i1.socket) := by
  have hs1t : (executeCommand sendOk1 m1 s).1.terminals = s.terminals := by
    rw [executeCommand_success_callback sendOk1 m1 s t c1 tInfo ht1 hreg_t
      hcb1 hc1 hok1]
  have hs1c : (executeCommand sendOk1 m1 s).1.completion_callbacks
      = dictSet s.completion_callbacks (executeKey t (some cmd)) c1 := by
    rw [executeCommand_success_callback sendOk1 m1 s t c1 tInfo ht1 hreg_t
      hcb1 hc1 hok1, hcmd1]
  have hreg_t1 : dictGet (executeCommand sendOk1 m1 s).1.terminals t
      = some tInfo := by
    rw [hs1t]
    exact hreg_t
  have hs2t : (executeCommand sendOk2 m2
      (executeCommand sendOk1 m1 s).1).1.terminals = s.terminals := by
    rw [executeCommand_success_callback sendOk2 m2
      (executeCommand sendOk1 m1 s).1 t c2 tInfo ht2 hreg_t1 hcb2 hc2 hok2]
    exact hs1t
  have hs2c : (executeCommand sendOk2 m2
      (executeCommand sendOk1 m1 s).1).1.completion_callbacks
      = dictSet (dictSet s.completion_callbacks (executeKey t (some cmd)) c1)
          (executeKey t (some cmd)) c2 := by
    rw [executeCommand_success_callback sendOk2 m2
      (executeCommand sendOk1 m1 s).1 t c2 tInfo ht2 hreg_t1 hcb2 hc2 hok2,
      hcmd2]
    rw [hs1c]
  have hck : completionKey m3 = executeKey t (some cmd) := by
    simp [completionKey, executeKey, pyStr, hm3t, hm3c]
  have hkey : dictGet (executeCommand sendOk2 m2
      (executeCommand sendOk1 m1 s).1).1.completion_callbacks
      (executeKey t (some cmd)) = some c2 := by
    rw [hs2c]
    exact dictGet_dictSet_self _ _ _
  have hfound : dictGet (executeCommand sendOk2 m2
      (executeCommand sendOk1 m1 s).1).1.completion_callbacks
      (completionKey m3) = some c2 := by
    rw [hck]
    exact hkey
  have hreg_c2' : dictGet (executeCommand sendOk2 m2
      (executeCommand sendOk1 m1 s).1).1.terminals c2 = some i2 := by
    rw [hs2t]
    exact hreg_c2
  have hout : (handleCompletion sendOk3 m3 (executeCommand sendOk2 m2
      (executeCommand sendOk1 m1 s).1).1).2
      = [(i2.socket, OutMsg.callback m3.terminal m3.command m3.result)] := by
    rw [handleCompletion_found sendOk3 m3 _ c2 hfound]
    simp [hreg_c2', hok3]
  refine ⟨hkey, hout, ?_⟩
  intro w hw
  rw [hout] at hw
  rcases List.mem_singleton.mp hw with rfl
  intro hh
  exact hsock (hh.symm)

/-- Session info for a terminal on socket 3. -/
def infoT : TermInfo := { socket := 3, pid := none, cwd := "/" }

/-- A registry holding terminals `A`, `B` and `T` on sockets 1, 2 and 3. -/
def sABT : BrokerState :=
  { terminals := [("A", infoA), ("B", infoB), ("T", infoT)],
    completion_callbacks := [] }

/-- An execute message for target `T`, command `ls`, callback terminal `A`. -/
def mExecTA : Msg :=
  { type := some "execute", target := some "T", command := some "ls",
    callback := some "A" }

/-- An execute message for target `T`, command `ls`, callback terminal `B`. -/
def mExecTB : Msg :=
  { type := some "execute", target := some "T", command := some "ls",
    callback := some "B" }

/-- A complete message from `T` for command `ls`. -/
def mCompT : Msg :=
  { type := some "complete", terminal := some "T", command := some "ls",
    result := some "r" }

/-- C4 witness: executing `ls` on `T` with callback `A`, again with callback
`B`, then completing, fires only `B`'s socket 2 and never `A`'s socket 1. -/
theorem C4_witness :
    dictGet (executeCommand okAll mExecTB
        (executeCommand okAll mExecTA sABT).1).1.completion_callbacks
        (executeKey "T" (some "ls")) = some "B" ∧
    (handleCompletion okAll mCompT (executeCommand okAll mExecTB
        (executeCommand okAll mExecTA sABT).1).1).2
      = [(2, OutMsg.callback (some "T") (some "ls") (some "r"))] ∧
    (1, OutMsg.callback (some "T") (some "ls") (some "r"))
      ∉ (handleCompletion okAll mCompT (executeCommand okAll mExecTB
          (executeCommand okAll mExecTA sABT).1).1).2 := by
  have h := C4_second_execute_wins okAll okAll okAll sABT "T" "ls" "A" "B"
      infoT infoA infoB mExecTA mExecTB mCompT rfl rfl rfl (by decide)
      rfl rfl rfl (by decide) rfl rfl (by decide) rfl rfl (by decide)
      (by decide) rfl (by decide)
  refine ⟨h.1, ?_, ?_⟩
  · rw [h.2.1]
    rfl
  · intro hmem
    exact (h.2.2 _ hmem) rfl

/-- C1 counterexample: register `A` from socket 1 and `B` from socket 2,
then let `A`'s connection close.  The teardown path of `_handle_client`
removes nothing, so `A` is still registered and a subsequent `list` still
reports `A` — contradicting the claim that no stale entry survives the
session. -/
theorem C1_counterexample :
    dictGet (handleDisconnect 1 (registerTerminal "/" okAll regB 2
        (registerTerminal "/" okAll regA 1 s0).1).1).terminals "A"
      = some infoA ∧
    (listTerminals okAll 3 (handleDisconnect 1 (registerTerminal "/" okAll
        regB 2 (registerTerminal "/" okAll regA 1 s0).1).1)).2
      = [(3, OutMsg.listReply ["A", "B"])] := by
  decide

/-- C1 amended: on peer close or read error the broker deregisters nothing —
`_handle_client`'s teardown leaves the state exactly as it was — and a stale
entry disappears only lazily, when a later write to that terminal fails
inside `_send_to_terminal`. -/
theorem C1_no_deregistration_on_disconnect (client : Nat) (s : BrokerState)
    (sendOk : Nat → Bool) (msg : Msg) (t : String) (info : TermInfo)
    (ht : msg.target = some t) (hreg : dictGet s.terminals t = some info)
    (hfail : sendOk info.socket = false) :
    handleDisconnect client s = s ∧
    dictGet (sendToTerminal sendOk msg s).1.terminals t = none ∧
    (sendToTerminal sendOk msg s).2 = [] := by
  have hsend : sendToTerminal sendOk msg s
      = ({ s with terminals := dictDel s.terminals t }, []) := by
    simp [sendToTerminal, ht, hreg, hfail]
  refine ⟨rfl, ?_, ?_⟩
  · rw [hsend]
    exact dictGet_dictDel_self _ _
  · rw [hsend]

/-- C1 witness: after `A`'s peer closes, the registry still holds `A`; a
later failing send to `A` finally removes the stale entry silently. -/
theorem C1_witness :
    handleDisconnect 1 sAB = sAB ∧
    dictGet (sendToTerminal okNone msgSendA sAB).1.terminals "A" = none ∧
    (sendToTerminal okNone msgSendA sAB).2 = [] :=
  C1_no_deregistration_on_disconnect 1 sAB okNone msgSendA "A" infoA rfl
    (by decide) rfl

/-- C5 counterexample: the callback write of `_handle_completion` raises
(socket 1 refuses), yet callback terminal `A` stays in the Registry — the
claimed removal-on-write-failure does not happen on the complete path. -/
theorem C5_counterexample :
    (handleCompletion okNone msgCompB sCB).1.terminals = [("A", infoA)] ∧
    (handleCompletion okNone msgCompB sCB).2 = [] := by
  decide

/-- C5 amended: a write failure is silent toward the sender in all three
cases, and removes the target terminal's Registry entry for the message
write of send and the execute write of execute; the callback write of
complete swallows the failure without touching the Registry. -/
theorem C5_write_failure_removal (sendOk : Nat → Bool) (s : BrokerState)
    (msg : Msg) (t : String) (info : TermInfo) :
    (msg.target = some t → dictGet s.terminals t = some info →
        sendOk info.socket = false →
        sendToTerminal sendOk msg s
          = ({ s with terminals := dictDel s.terminals t }, [])) ∧
    (msg.target = some t → dictGet s.terminals t = some info →
        sendOk info.socket = false →
        (executeCommand sendOk msg s).1.terminals = dictDel s.terminals t ∧
        (executeCommand sendOk msg s).2 = []) ∧
    (∀ cb, dictGet s.completion_callbacks (completionKey msg) = some cb →
        dictGet s.terminals cb = some info → sendOk info.socket = false →
        (handleCompletion sendOk msg s).1.terminals = s.terminals ∧
        (handleCompletion sendOk msg s).2 = []) := by
  refine ⟨?_, ?_, ?_⟩
  · intro ht hreg hfail
    simp [sendToTerminal, ht, hreg, hfail]
  · intro ht hreg hfail
    cases hcb : msg.callback with
    | none => constructor <;> simp [executeCommand, ht, hreg, hfail, hcb]
    | some cb =>
        by_cases hne : cb = ""
        · constructor <;> simp [executeCommand, ht, hreg, hfail, hcb, hne]
        · constructor <;> simp [executeCommand, ht, hreg, hfail, hcb, hne]
  · intro cb hcb hregcb hfail
    rw [handleCompletion_found sendOk msg s cb hcb]
    constructor
    · rfl
    · simp [hregcb, hfail]

/-- C5 witness: a failing send to `A` removes `A`, while a failing callback
write to `A` during a complete leaves the registry as it was. -/
theorem C5_witness :
    sendToTerminal okNone msgSendA sCB
      = ({ sCB with terminals := dictDel sCB.terminals "A" }, []) ∧
    (handleCompletion okNone msgCompB sCB).1.terminals = sCB.terminals ∧
    (handleCompletion okNone msgCompB sCB).2 = [] := by
  have h1 := (C5_write_failure_removal okNone sCB msgSendA "A" infoA).1
      rfl (by decide) rfl
  have h3 := (C5_write_failure_removal okNone sCB msgCompB "A" infoA).2.2
      "A" (by decide) (by decide) rfl
  exact ⟨h1, h3.1, h3.2⟩

/-- A registry holding a terminal literally named `a:b` (socket 4) and a
callback terminal `X` (socket 5). -/
def sColon : BrokerState :=
  { terminals := [("a:b", { socket := 4, pid := none, cwd := "/" }),
                  ("X", { socket := 5, pid := none, cwd := "/" })],
    completion_callbacks := [] }

/-- An execute message for the pair (target `a:b`, command `c`) with
callback terminal `X`. -/
def mExecColon : Msg :=
  { type := some "execute", target := some "a:b", command := some "c",
    callback := some "X" }

/-- A complete message for the distinct pair (terminal `a`, command `b:c`). -/
def mCompColon : Msg :=
  { type := some "complete", terminal := some "a", command := some "b:c",
    result := some "r" }

/-- C6 counterexample: the pairs `("a:b", "c")` and `("a", "b:c")` are
distinct, yet the completion for the latter finds, fires and consumes the
entry created by an execute for the former — both collapse to the f-string
key `a:b:c`, so matching is not exact on pairs. -/
theorem C6_counterexample :
    (handleCompletion okAll mCompColon
        (executeCommand okAll mExecColon sColon).1).2
      = [(5, OutMsg.callback (some "a") (some "b:c") (some "r"))] ∧
    (handleCompletion okAll mCompColon
        (executeCommand okAll mExecColon sColon).1).1.completion_callbacks
      = [] := by
  decide

/-- C6 amended: the Callback Table is keyed by the concatenated f-string
`target ++ ":" ++ command`, not by the pair itself: an execute stores under
`executeKey`, leaving every other key untouched, and a complete matches an
entry exactly when its own concatenation `completionKey` equals the stored
key — so two distinct pairs interfere precisely when their concatenations
coincide (as `("a:b", "c")` versus `("a", "b:c")` shows), and never
otherwise. -/
theorem C6_key_is_concatenated_string (sendOk : Nat → Bool) (s : BrokerState)
    (msg : Msg) :
    (∀ t cb info, msg.target = some t → dictGet s.terminals t = some info →
        msg.callback = some cb → cb ≠ "" →
        dictGet (executeCommand sendOk msg s).1.completion_callbacks
            (executeKey t msg.command) = some cb ∧
        (∀ k, k ≠ executeKey t msg.command →
            dictGet (executeCommand sendOk msg s).1.completion_callbacks k
              = dictGet s.completion_callbacks k)) ∧
    (∀ k, k ≠ completionKey msg →
        dictGet (handleCompletion sendOk msg s).1.completion_callbacks k
          = dictGet s.completion_callbacks k) ∧
    (dictGet s.completion_callbacks (completionKey msg) = none →
        handleCompletion sendOk msg s = (s, [])) := by
  refine ⟨?_, ?_, ?_⟩
  · intro t cb info ht hreg hcb hne
    cases hok : sendOk info.socket with
    | true =>
        rw [executeCommand_success_callback sendOk msg s t cb info ht hreg
          hcb hne hok]
        exact ⟨dictGet_dictSet_self _ _ _,
          fun k hk => dictGet_dictSet_ne _ _ _ _ hk⟩
    | false =>
        rw [executeCommand_failure_callback sendOk msg s t cb info ht hreg
          hcb hne hok]
        exact ⟨dictGet_dictSet_self _ _ _,
          fun k hk => dictGet_dictSet_ne _ _ _ _ hk⟩
  · intro k hk
    cases hfound : dictGet s.completion_callbacks (completionKey msg) with
    | none => simp [handleCompletion, hfound]
    | some cb =>
        rw [handleCompletion_found sendOk msg s cb hfound]
        exact dictGet_dictDel_ne _ _ _ hk
  · intro h
    simp [handleCompletion, h]

/-- C6 witness: the execute on `("a:b", "c")` is stored under the key
`a:b:c` and leaves the unrelated key `q` untouched; a completion whose
concatenation matches no entry is a no-op. -/
theorem C6_witness :
    dictGet (executeCommand okAll mExecColon sColon).1.completion_callbacks
        (executeKey "a:b" (some "c")) = some "X" ∧
    dictGet (executeCommand okAll mExecColon sColon).1.completion_callbacks
        "q" = dictGet sColon.completion_callbacks "q" ∧
    handleCompletion okAll mCompColon sColon = (sColon, []) := by
  have h1 := (C6_key_is_concatenated_string okAll sColon mExecColon).1 "a:b"
      "X" { socket := 4, pid := none, cwd := "/" } rfl (by decide) rfl
      (by decide)
  have h3 := (C6_key_is_concatenated_string okAll sColon mCompColon).2.2
      (by decide)
  exact ⟨h1.1, h1.2 "q" (by decide), h3⟩
